import Mathlib

/-!
Verification of the GotoBank_v2 polling scheduler
(`MB_fastAPI_webhook_like_v2/schedule_module.py` and
`MB_fastAPI_webhook_like_v2/mb_actions.py`) against its natural-language
specification.

The Python code is shallowly embedded: dictionaries holding a transaction's
fields become a `Txn` structure, timestamps become minutes-since-epoch
integers (the code formats watermarks at minute precision with
`"%d/%m/%Y %H:%M"`), file-system effects become explicit operation lists,
and the outbound HTTP calls become outcome-valued oracles supplied as
function arguments.
-/

namespace GotoBank

/-- A bank transaction row as scraped from the portal.  In the Python code a
transaction is a `dict` from (Vietnamese) column headers to strings; the
embedding keeps the five fields the scheduler actually reads:
`"SỐ BÚT TOÁN"` (journal/reference number, the dedup key), `"NGÀY GIAO DỊCH"`
(transaction date), `"PHÁT SINH CÓ"` (credit amount), `"PHÁT SINH NỢ"`
(debit amount) and `"NỘI DUNG"` (description). -/
structure Txn where
  soButToan : String
  ngayGiaoDich : String
  phatSinhCo : String
  phatSinhNo : String
  noiDung : String
deriving DecidableEq

/-- Drop leading whitespace, then drop trailing whitespace, of a character
list (structural recursion so that concrete instances compute). -/
def stripCharList (l : List Char) : List Char :=
  ((l.dropWhile Char.isWhitespace).reverse.dropWhile Char.isWhitespace).reverse

/-- Python's `str.strip()` as used on identifiers: remove whitespace from both
ends of the string. -/
def pyStrip (s : String) : String := String.mk (stripCharList s.data)

/-- The deduplication key of a transaction:
`txn.get("SỐ BÚT TOÁN", "").strip()` (schedule_module.py lines 518, 548). -/
def txnId (t : Txn) : String := pyStrip t.soButToan

/-- The `old_transaction_ids` accumulation loop of
`find_unique_transactions_v2` (schedule_module.py lines 506-520): for every
old batch file and every transaction in it, take the stripped
`"SỐ BÚT TOÁN"` value and append it when it is non-empty. -/
def oldTransactionIds (oldBatches : List (List Txn)) : List String :=
  oldBatches.foldl
    (fun acc txns =>
      txns.foldl
        (fun acc2 t => if txnId t = "" then acc2 else acc2 ++ [txnId t]) acc)
    []

/-- The `unique_transactions` selection loop of `find_unique_transactions_v2`
(schedule_module.py lines 543-552): walk the newest batch in order and keep a
transaction unless its stripped id is empty or occurs in
`old_transaction_ids`. -/
def findUniqueTransactions (oldBatches : List (List Txn)) (newest : List Txn) :
    List Txn :=
  newest.foldl
    (fun acc t =>
      if txnId t = "" ∨ txnId t ∈ oldTransactionIds oldBatches then acc
      else acc ++ [t])
    []

/-- A transaction whose identifier is empty, used to refute the "entire batch
unchanged" reading of the first-run claim. -/
def emptyIdTxn : Txn := ⟨"", "05/06/2025 09:00:00", "500", "0", "x"⟩

/-- Result of one call to `API_service_lark.push_to_Lark_Channel` as observed
by the push loop of `push_transactions_to_lark_v2` (schedule_module.py lines
685-695): `okCode` is a response dict with `code == 0`, `failCode` any other
returned value, and `raised` a Python exception escaping the call (the
un-caught `requests` errors in `push_to_Lark_Channel`). -/
inductive PushOutcome
  | okCode
  | failCode
  | raised
deriving DecidableEq

/-- The per-transaction push loop of `push_transactions_to_lark_v2`
(schedule_module.py lines 657-697), over the already-reversed list.  Returns
the transactions for which a push was attempted (in order), the
`success_count`, and whether an exception escaped the loop.  There is no
try/except around the push call, so a `raised` outcome aborts the loop: the
remaining transactions are not attempted. -/
def larkPushLoop (f : Txn → PushOutcome) : List Txn → List Txn × Nat × Bool
  | [] => ([], 0, false)
  | t :: rest =>
    match f t with
    | .raised => ([t], 0, true)
    | .okCode =>
      let r := larkPushLoop f rest
      (t :: r.1, r.2.1 + 1, r.2.2)
    | .failCode =>
      let r := larkPushLoop f rest
      (t :: r.1, r.2.1, r.2.2)

/-- The transactions for which `push_transactions_to_lark_v2` attempts a
notification push, in send order: the input is reversed
(`transactions.reverse()`, line 655, "Send oldest first") before the loop. -/
def larkAttempted (f : Txn → PushOutcome) (txns : List Txn) : List Txn :=
  (larkPushLoop f txns.reverse).1

/-- The overall result of `push_transactions_to_lark_v2` (schedule_module.py
lines 644-700): `True` on empty input (line 645-646), otherwise
`success_count > 0` (line 700); `Except.error` models an exception escaping
the function. -/
def pushTransactionsToLarkV2 (f : Txn → PushOutcome) (txns : List Txn) :
    Except Unit Bool :=
  if txns.isEmpty then Except.ok true
  else
    if (larkPushLoop f txns.reverse).2.2 then Except.error ()
    else Except.ok (decide (0 < (larkPushLoop f txns.reverse).2.1))

/-- Result of one call to `API_service_woo.process_woo_transaction` as
observed by `process_woocommerce_transactions` (schedule_module.py lines
611-634): the four result shapes distinguished by the logging code, plus
`raised` for a Python exception escaping the call. -/
inductive WooOutcome
  | orderSuccess
  | orderDetectedOnly
  | notWooTransaction
  | errorResult
  | raised
deriving DecidableEq

/-- The per-transaction loop of `process_woocommerce_transactions`
(schedule_module.py lines 600-636).  A transaction is processed when its
`"PHÁT SINH CÓ"` is not `"0"` (line 606).  Each call is wrapped in its own
try/except (lines 607, 633-634), so even a `raised` outcome is recorded and
the loop continues with the next transaction; the result pairs each
attempted transaction with its observed outcome. -/
def processWooTransactions (g : Txn → WooOutcome) : List Txn → List (Txn × WooOutcome)
  | [] => []
  | t :: rest =>
    if t.phatSinhCo ≠ "0" then (t, g t) :: processWooTransactions g rest
    else processWooTransactions g rest

/-- A transaction row of a persisted batch as read back by
`get_last_fetch_time_from_json`: only its parsed `"NGÀY GIAO DỊCH"` matters.
Timestamps are modelled as whole minutes (the watermark is formatted with
`"%d/%m/%Y %H:%M"`, i.e. minute precision); `none` models a missing or
unparseable date (the `except ... continue` at lines 175-177). -/
structure TimedTxn where
  time : Option Int
deriving DecidableEq

/-- The newest persisted batch file as read back by
`get_last_fetch_time_from_json`: its own `"timestamp"` field (the fetch
time, `none` when absent) and its transaction list. -/
structure FetchFile where
  fetchTimestamp : Option Int
  transactions : List TimedTxn
deriving DecidableEq

/-- One iteration of the latest-transaction-time loop
(schedule_module.py lines 150-177): skip unparseable dates, keep the running
maximum (`transaction_dt > latest_transaction_time`). -/
def latestStep (acc : Option Int) (t : TimedTxn) : Option Int :=
  match t.time with
  | none => acc
  | some d =>
    match acc with
    | none => some d
    | some m => if m < d then some d else some m

/-- The value `latest_transaction_time` computed from a batch's transactions
(schedule_module.py lines 149-177). -/
def latestTxnTime (txns : List TimedTxn) : Option Int :=
  txns.foldl latestStep none

/-- Embedding of `get_last_fetch_time_from_json` (schedule_module.py lines 107-199) on the
newest batch file (`none` when no batch files exist): with no transactions,
fall back to the batch's own fetch timestamp (lines 124-146); otherwise the
latest transaction timestamp, falling back to the fetch timestamp when no
transaction date parsed (lines 179-195). -/
def getLastFetchTime : Option FetchFile → Option Int
  | none => none
  | some f =>
    if f.transactions.isEmpty then f.fetchTimestamp
    else
      match latestTxnTime f.transactions with
      | some m => some m
      | none => f.fetchTimestamp

/-- Embedding of `current_time.replace(hour=0, minute=0, second=0, microsecond=0)`
(schedule_module.py line 223) in the minutes model: the start of the current
day (1440 minutes per day). -/
def startOfBusinessDay (now : Int) : Int := now - now % 1440

/-- Embedding of `get_from_date_for_fetch` (schedule_module.py lines 201-226): when
`get_last_fetch_time_from_json` yields a time, subtract the 2-minute buffer
(line 213); otherwise start from 00:00 of the current day (lines 223-224). -/
def getFromDateForFetch (now : Int) (newest : Option FetchFile) : Int :=
  match getLastFetchTime newest with
  | some t => t - 2
  | none => startOfBusinessDay now

/-- Outcome of one login attempt of `log_in_v2` (mb_actions.py lines
385-676) as classified by its error-dialog logic: `success` (the success
indicators at lines 578-588), `gw715` a captcha error (retry, lines 607-620),
`gw18` account temporarily locked (stop, lines 622-635), `credentialError`
any other credential error message (stop, lines 637-650).  The outcome is a
function of the attempt index because every attempt re-reads a fresh captcha
challenge (lines 455-500). -/
inductive AttemptOutcome
  | success
  | gw715
  | gw18
  | credentialError
deriving DecidableEq

/-- The `for attempt in range(max_attempts)` loop of `log_in_v2`, given the
per-attempt outcomes in order: return `True` on success, keep trying on a
GW715 captcha error, return `False` immediately on GW18 or any other
credential error, and return `False` when the attempts are exhausted
(lines 674-676). -/
def logInList : List AttemptOutcome → Bool
  | [] => false
  | .success :: _ => true
  | .gw715 :: rest => logInList rest
  | .gw18 :: _ => false
  | .credentialError :: _ => false

/-- Number of login attempts actually performed by the loop of `log_in_v2`:
every attempt up to and including the first non-GW715 outcome. -/
def attemptsUsed : List AttemptOutcome → Nat
  | [] => 0
  | .gw715 :: rest => 1 + attemptsUsed rest
  | _ :: _ => 1

/-- Embedding of `log_in_v2` (mb_actions.py lines 385-676) with
`max_attempts = int(os.getenv("MB_LOGIN_MAX_ATTEMPTS", "3"))` (default 3)
and the outcome of each attempt given by `attemptOutcome`. -/
def logInV2 (maxAttempts : Nat) (attemptOutcome : Nat → AttemptOutcome) : Bool :=
  logInList ((List.range maxAttempts).map attemptOutcome)

/-- The number of attempts `log_in_v2` performs before returning. -/
def logInV2Attempts (maxAttempts : Nat) (attemptOutcome : Nat → AttemptOutcome) : Nat :=
  attemptsUsed ((List.range maxAttempts).map attemptOutcome)

/-- Observable action of the scheduler loop's recovery branch:
sleeping, a recovery login attempt, the failure notification push, the
environment teardown, and process exit. -/
inductive SchedEvent
  | sleep (seconds : Nat)
  | loginAttempt
  | notifyFailure
  | teardown
  | exitProcess (code : Nat)
deriving DecidableEq

/-- Whether an event is a recovery login attempt. -/
def isLoginAttempt : SchedEvent → Bool
  | .loginAttempt => true
  | _ => false

/-- Seconds slept by an event. -/
def sleepSeconds : SchedEvent → Nat
  | .sleep n => n
  | _ => 0

/-- The session-health-check branch of one `run_scheduler` loop iteration
(schedule_module.py lines 772-848), as the list of events it performs.  The
branch runs only when the health check is due and `recovery_in_progress` is
not set (line 772).  When the session is dead it sleeps 3 x 60 seconds
(lines 782-784), logs out and sleeps 2 seconds (lines 794-795), sleeps 5
more seconds after cleanup (line 803), then makes exactly one recovery login
attempt (lines 807-812).  On success it resets the session timer and the
`finally` block sleeps 10 seconds (lines 844-848); on failure it pushes a
notification (lines 826-834), tears the environment down (line 836), runs
the same `finally` sleep, and exits with status 1 (line 837). -/
def healthCheckStep (healthDue sessionAlive recoveryFlag loginOk : Bool) :
    List SchedEvent :=
  if healthDue && !recoveryFlag then
    if !sessionAlive then
      [.sleep 60, .sleep 60, .sleep 60, .sleep 2, .sleep 5, .loginAttempt]
        ++ (if loginOk then [.sleep 10]
            else [.notifyFailure, .teardown, .sleep 10, .exitProcess 1])
    else []
  else []

/-- Number of recovery login attempts in a trace. -/
def loginAttemptCount (es : List SchedEvent) : Nat := es.countP isLoginAttempt

/-- Seconds slept before the first login attempt of a trace. -/
def sleepBeforeFirstLogin (es : List SchedEvent) : Nat :=
  ((es.takeWhile (fun e => !isLoginAttempt e)).map sleepSeconds).sum

/-- A file-system operation performed by the batch-persisting code. -/
inductive FsOp
  | write (name content : String)
  | removeIfExists (name : String)
  | rename (src dst : String)

/-- The data directory's contents: each file name maps to its current
content. -/
abbrev FsState := String → Option String

/-- Replace the content of file `n` with `c`. -/
def fsSet (s : FsState) (n c : String) : FsState :=
  fun m => if m = n then some c else s m

/-- Effect of a completed file-system operation.  `rename` is the atomic
POSIX `os.rename`: the destination takes the source's content and the
source disappears. -/
def applyFsOp (s : FsState) : FsOp → FsState
  | .write n c => fsSet s n c
  | .removeIfExists n => fun m => if m = n then none else s m
  | .rename a b => fun m => if m = b then s a else if m = a then none else s m

/-- The states a reader can observe while `write n c` is in progress: the
target file holds an arbitrary prefix of the new content (a plain
`open`/`json.dump` is not atomic). -/
def midWriteStates (s : FsState) (n c : String) : List FsState :=
  (List.range (c.length + 1)).map (fun k => fsSet s n (String.mk (c.data.take k)))

/-- Every state a reader (or a crash) can observe while a list of operations
runs: the state before each operation, the partial states of each write, and
the final state. -/
def observableStates (s : FsState) : List FsOp → List FsState
  | [] => [s]
  | op :: rest =>
    s :: ((match op with
           | .write n c => midWriteStates s n c
           | _ => []) ++ observableStates (applyFsOp s op) rest)

/-- The final batch file name `f"mb_biz_transactions_{timestamp}.json"`
(schedule_module.py lines 259, 351). -/
def finalBatchName (ts : String) : String :=
  "mb_biz_transactions_" ++ ts ++ ".json"

/-- The file operations of `save_transactions_to_file` (schedule_module.py
lines 327-386) for a non-empty batch: the write-permission probe (lines
340-343), the write of the full batch JSON to `filename + ".tmp"` (lines
368-370), the removal of a pre-existing final file (lines 374-375), and the
rename of the temporary file to the final name (line 376). -/
def saveTransactionsOps (ts content : String) : List FsOp :=
  [FsOp.write ".write_test" "test",
   FsOp.removeIfExists ".write_test",
   FsOp.write (finalBatchName ts ++ ".tmp") content,
   FsOp.removeIfExists (finalBatchName ts),
   FsOp.rename (finalBatchName ts ++ ".tmp") (finalBatchName ts)]

/-- The file operations of the empty-batch ("no transactions") save inside
`fetch_transactions_with_active_session_v2` (schedule_module.py lines
260-264): write the marker JSON to `filename + ".tmp"`, then rename it to
the final name. -/
def saveEmptyBatchOps (ts content : String) : List FsOp :=
  [FsOp.write (finalBatchName ts ++ ".tmp") content,
   FsOp.rename (finalBatchName ts ++ ".tmp") (finalBatchName ts)]

/-- Concrete transactions for the forwarder-isolation counterexample. -/
def ceTxn1 : Txn := ⟨"FTA00001", "03/06/2025 09:00:00", "10", "0", "p"⟩

/-- Second concrete transaction (the one whose push raises). -/
def ceTxn2 : Txn := ⟨"FTA00002", "03/06/2025 09:01:00", "20", "0", "q"⟩

/-- Third concrete transaction. -/
def ceTxn3 : Txn := ⟨"FTA00003", "03/06/2025 09:02:00", "30", "0", "r"⟩

/-- A push oracle whose call on `ceTxn2` raises and succeeds elsewhere. -/
def cePush : Txn → PushOutcome :=
  fun t => if t = ceTxn2 then PushOutcome.raised else PushOutcome.okCode

/-- An all-successful push oracle. -/
def allOkPush : Txn → PushOutcome := fun _ => PushOutcome.okCode

/-- A push oracle succeeding only on `ceTxn1`. -/
def okOn1Push : Txn → PushOutcome :=
  fun t => if t = ceTxn1 then PushOutcome.okCode else PushOutcome.failCode

/-- The newest batch file for the watermark counterexample: a persisted
"no transactions" marker whose own fetch timestamp is minute 1000. -/
def emptyBatchFile : FetchFile := { fetchTimestamp := some 1000, transactions := [] }

/-- A newest batch file with transactions at minutes 30 and 40. -/
def wmFile : FetchFile :=
  { fetchTimestamp := some 50, transactions := [⟨some 30⟩, ⟨some 40⟩] }

/-- Per-attempt login outcomes: two captcha failures, then success. -/
def retryOutcomes : Nat → AttemptOutcome :=
  fun n => if n < 2 then AttemptOutcome.gw715 else AttemptOutcome.success

/-! Helper lemmas relating the accumulation loops to `List.filter`. -/

theorem findUnique_foldl_eq_filter (ids : List String) :
    ∀ (l acc : List Txn),
      l.foldl
        (fun acc t => if txnId t = "" ∨ txnId t ∈ ids then acc else acc ++ [t])
        acc
      = acc ++ l.filter (fun t => decide (txnId t ≠ "" ∧ txnId t ∉ ids)) := by
  intro l
  induction l with
  | nil => intro acc; simp
  | cons t rest ih =>
    intro acc
    by_cases h : txnId t = "" ∨ txnId t ∈ ids
    · have hfilter : (decide (txnId t ≠ "" ∧ txnId t ∉ ids)) = false := by
        simp only [decide_eq_false_iff_not]
        tauto
      simp only [List.foldl_cons, if_pos h, List.filter_cons, hfilter]
      exact ih acc
    · have hfilter : (decide (txnId t ≠ "" ∧ txnId t ∉ ids)) = true := by
        simp only [decide_eq_true_eq]
        tauto
      simp only [List.foldl_cons, if_neg h, List.filter_cons, hfilter]
      rw [ih (acc ++ [t])]
      simp

theorem oldIds_inner_foldl_eq (txns : List Txn) :
    ∀ acc : List String,
      txns.foldl
        (fun acc2 t => if txnId t = "" then acc2 else acc2 ++ [txnId t]) acc
      = acc ++ (txns.map txnId).filter (fun s => decide (s ≠ "")) := by
  induction txns with
  | nil => intro acc; simp
  | cons t rest ih =>
    intro acc
    by_cases h : txnId t = ""
    · simp only [List.foldl_cons, if_pos h, List.map_cons, List.filter_cons]
      have : (decide (txnId t ≠ "")) = false := by simp [h]
      rw [this]
      exact ih acc
    · simp only [List.foldl_cons, if_neg h, List.map_cons, List.filter_cons]
      have : (decide (txnId t ≠ "")) = true := by simp [h]
      rw [this]
      rw [ih (acc ++ [txnId t])]
      simp

theorem oldTransactionIds_eq_filter_map (oldBatches : List (List Txn)) :
    oldTransactionIds oldBatches
      = (oldBatches.flatten.map txnId).filter (fun s => decide (s ≠ "")) := by
  unfold oldTransactionIds
  suffices h : ∀ acc : List String,
      oldBatches.foldl
        (fun acc txns =>
          txns.foldl
            (fun acc2 t => if txnId t = "" then acc2 else acc2 ++ [txnId t])
            acc)
        acc
      = acc ++ (oldBatches.flatten.map txnId).filter (fun s => decide (s ≠ "")) by
    simpa using h []
  induction oldBatches with
  | nil => intro acc; simp
  | cons b rest ih =>
    intro acc
    simp only [List.foldl_cons, List.flatten_cons, List.map_append,
      List.filter_append]
    rw [oldIds_inner_foldl_eq b acc, ih]
    simp

theorem mem_oldTransactionIds (oldBatches : List (List Txn)) (s : String) :
    s ∈ oldTransactionIds oldBatches
      ↔ s ≠ "" ∧ ∃ b ∈ oldBatches, ∃ t ∈ b, txnId t = s := by
  rw [oldTransactionIds_eq_filter_map]
  simp only [List.mem_filter, List.mem_map, List.mem_flatten,
    decide_eq_true_eq]
  constructor
  · rintro ⟨⟨t, ⟨b, hb, ht⟩, rfl⟩, hne⟩
    exact ⟨hne, b, hb, t, ht, rfl⟩
  · rintro ⟨hne, b, hb, t, ht, rfl⟩
    exact ⟨⟨t, ⟨b, hb, ht⟩, rfl⟩, hne⟩

/-- C1.  `find_unique_transactions_v2` returns exactly the transactions of the
newest batch whose stripped `"SỐ BÚT TOÁN"` identifier is non-empty and does
not occur among the identifiers collected from the older batches; and the
collected old-identifier list contains exactly the non-empty stripped
identifiers of the older batches (so a transaction with an empty identifier
is excluded from both the old set and the new set). -/
theorem find_unique_transactions_exact_diff
    (oldBatches : List (List Txn)) (newest : List Txn) :
    findUniqueTransactions oldBatches newest
      = newest.filter
          (fun t => decide (txnId t ≠ "" ∧ txnId t ∉ oldTransactionIds oldBatches))
    ∧ ∀ s : String, s ∈ oldTransactionIds oldBatches
        ↔ s ≠ "" ∧ ∃ b ∈ oldBatches, ∃ t ∈ b, txnId t = s := by
  constructor
  · unfold findUniqueTransactions
    simpa using findUnique_foldl_eq_filter (oldTransactionIds oldBatches) newest []
  · exact mem_oldTransactionIds oldBatches

/-- Concrete instance of C1: one old batch containing id `FT11111`, a newest
batch containing id `FT11111` (duplicate), id `FT22222` (fresh) and an
empty-id transaction; only the `FT22222` transaction is returned, and the old
identifier set is exactly `[FT11111]`. -/
theorem find_unique_transactions_exact_diff_witness :
    findUniqueTransactions
        [[⟨"FT11111", "01/06/2025 10:00:00", "100", "0", "a"⟩]]
        [⟨"FT22222", "01/06/2025 10:05:00", "200", "0", "b"⟩,
         ⟨"FT11111", "01/06/2025 10:00:00", "100", "0", "a"⟩,
         ⟨"", "01/06/2025 10:06:00", "300", "0", "c"⟩]
      = [⟨"FT22222", "01/06/2025 10:05:00", "200", "0", "b"⟩]
    ∧ "" ∉ oldTransactionIds
        [[⟨"FT11111", "01/06/2025 10:00:00", "100", "0", "a"⟩]] := by
  have h := find_unique_transactions_exact_diff
    [[⟨"FT11111", "01/06/2025 10:00:00", "100", "0", "a"⟩]]
    [⟨"FT22222", "01/06/2025 10:05:00", "200", "0", "b"⟩,
     ⟨"FT11111", "01/06/2025 10:00:00", "100", "0", "a"⟩,
     ⟨"", "01/06/2025 10:06:00", "300", "0", "c"⟩]
  refine ⟨?_, ?_⟩
  · rw [h.1]; decide
  · intro hmem
    have := (h.2 "").mp hmem
    exact this.1 rfl

/-- C5 counterexample.  With zero prior batches, `find_unique_transactions_v2`
does not return the newest batch unchanged: a transaction whose
`"SỐ BÚT TOÁN"` strips to the empty string is dropped even on the first run,
so the result differs from the input batch. -/
theorem first_run_not_entire_batch :
    findUniqueTransactions [] [emptyIdTxn] ≠ [emptyIdTxn] := by
  decide

/-- C5 (amended).  With zero prior batches the old-identifier set is empty, so
`find_unique_transactions_v2` returns exactly the newest batch's transactions
with a non-empty stripped identifier, in order; in particular, when every
transaction of the newest batch has a non-empty identifier the entire batch
is returned unchanged. -/
theorem first_run_returns_batch
    (newest : List Txn) :
    findUniqueTransactions [] newest
      = newest.filter (fun t => decide (txnId t ≠ ""))
    ∧ ((∀ t ∈ newest, txnId t ≠ "") → findUniqueTransactions [] newest = newest) := by
  have hids : oldTransactionIds [] = [] := rfl
  have hmain : findUniqueTransactions [] newest
      = newest.filter (fun t => decide (txnId t ≠ "")) := by
    unfold findUniqueTransactions
    rw [hids, findUnique_foldl_eq_filter [] newest []]
    simp only [List.nil_append]
    apply List.filter_congr
    intro t _
    simp [decide_eq_decide]
  refine ⟨hmain, fun hall => ?_⟩
  rw [hmain]
  apply List.filter_eq_self.mpr
  intro t ht
  simp [hall t ht]

/-- Concrete instance of C5 (amended): a two-transaction first batch with
non-empty identifiers passes through unchanged. -/
theorem first_run_returns_batch_witness :
    findUniqueTransactions []
        [⟨"FT33333", "02/06/2025 08:00:00", "50", "0", "d"⟩,
         ⟨"FT44444", "02/06/2025 08:10:00", "0", "70", "e"⟩]
      = [⟨"FT33333", "02/06/2025 08:00:00", "50", "0", "d"⟩,
         ⟨"FT44444", "02/06/2025 08:10:00", "0", "70", "e"⟩] :=
  (first_run_returns_batch
      [⟨"FT33333", "02/06/2025 08:00:00", "50", "0", "d"⟩,
       ⟨"FT44444", "02/06/2025 08:10:00", "0", "70", "e"⟩]).2
    (by decide)

/-- Shared form of the dedup loop as a filter (used by several claims). -/
theorem findUnique_eq_filter (oldBatches : List (List Txn)) (newest : List Txn) :
    findUniqueTransactions oldBatches newest
      = newest.filter
          (fun t => decide (txnId t ≠ "" ∧ txnId t ∉ oldTransactionIds oldBatches)) := by
  unfold findUniqueTransactions
  simpa using findUnique_foldl_eq_filter (oldTransactionIds oldBatches) newest []

/-- When no push raises, the push loop attempts every transaction, counts
the successful ones, and no exception escapes. -/
theorem larkPushLoop_no_raised (f : Txn → PushOutcome) :
    ∀ l : List Txn, (∀ t ∈ l, f t ≠ PushOutcome.raised) →
      larkPushLoop f l
        = (l, l.countP (fun t => decide (f t = PushOutcome.okCode)), false) := by
  intro l
  induction l with
  | nil => intro _; rfl
  | cons t rest ih =>
    intro h
    have ht := h t (List.mem_cons_self t rest)
    have hrest : ∀ x ∈ rest, f x ≠ PushOutcome.raised :=
      fun x hx => h x (List.mem_cons_of_mem t hx)
    cases hc : f t with
    | raised => exact absurd hc ht
    | okCode => simp [larkPushLoop, hc, ih hrest, List.countP_cons]
    | failCode => simp [larkPushLoop, hc, ih hrest, List.countP_cons]

/-- C7.  When no push raises, the sequence of notification pushes performed
by `push_transactions_to_lark_v2` is exactly the reverse of the fetch-order
input list (oldest first). -/
theorem forward_order_oldest_first (f : Txn → PushOutcome) (txns : List Txn)
    (h : ∀ t ∈ txns, f t ≠ PushOutcome.raised) :
    larkAttempted f txns = txns.reverse := by
  unfold larkAttempted
  rw [larkPushLoop_no_raised f txns.reverse
    (fun t ht => h t (List.mem_reverse.mp ht))]

/-- Concrete instance of C7: three transactions, all pushes returning a
result; the pushes happen in reverse (oldest-first) order. -/
theorem forward_order_oldest_first_witness :
    larkAttempted allOkPush [ceTxn1, ceTxn2, ceTxn3] = [ceTxn3, ceTxn2, ceTxn1] :=
  (forward_order_oldest_first allOkPush [ceTxn1, ceTxn2, ceTxn3]
    (by decide)).trans (by decide)

/-- C8.  For a non-empty input whose pushes all return a result (none
raises), `push_transactions_to_lark_v2` reports overall success exactly when
at least one per-transaction push succeeded; per-transaction failures do not
escalate to a hard error. -/
theorem forward_success_iff_any (f : Txn → PushOutcome) (txns : List Txn)
    (h0 : txns ≠ []) (h : ∀ t ∈ txns, f t ≠ PushOutcome.raised) :
    pushTransactionsToLarkV2 f txns = Except.ok true
      ↔ ∃ t ∈ txns, f t = PushOutcome.okCode := by
  unfold pushTransactionsToLarkV2
  rw [larkPushLoop_no_raised f txns.reverse
    (fun t ht => h t (List.mem_reverse.mp ht))]
  rw [if_neg (by simpa [List.isEmpty_iff] using h0)]
  simp [List.countP_pos_iff]

/-- Concrete instance of C8: two transactions, only the first push
succeeding; the overall result is still success. -/
theorem forward_success_iff_any_witness :
    pushTransactionsToLarkV2 okOn1Push [ceTxn1, ceTxn3] = Except.ok true
      ↔ ∃ t ∈ [ceTxn1, ceTxn3], okOn1Push t = PushOutcome.okCode :=
  forward_success_iff_any okOn1Push [ceTxn1, ceTxn3] (by decide) (by decide)

/-- C6 counterexample.  With three transactions where the notification push
of the 2nd raises an exception, `push_transactions_to_lark_v2` does not
attempt all remaining transactions: the exception escapes the loop and the
1st transaction (last in send order) is never pushed. -/
theorem forwarder_isolation_counterexample :
    ceTxn1 ∉ larkAttempted cePush [ceTxn1, ceTxn2, ceTxn3]
    ∧ larkAttempted cePush [ceTxn1, ceTxn2, ceTxn3] = [ceTxn3, ceTxn2] := by
  constructor <;> decide

/-- C6 (amended).  A notification push failure that is reported as a result
(no exception) does not prevent the remaining transactions from being
attempted, and an order-creation error for one transaction — even a raised
exception — never prevents the remaining transactions from being processed
(each WooCommerce call sits in its own try/except); but an exception raised
by a notification push aborts the remaining pushes: the transactions after
it in send order are not attempted. -/
theorem forwarder_isolation_amended :
    (∀ (f : Txn → PushOutcome) (txns : List Txn),
        (∀ t ∈ txns, f t ≠ PushOutcome.raised) →
        larkAttempted f txns = txns.reverse)
    ∧ (∀ (g : Txn → WooOutcome) (txns : List Txn),
        (processWooTransactions g txns).map Prod.fst
          = txns.filter (fun t => decide (t.phatSinhCo ≠ "0")))
    ∧ (∀ (f : Txn → PushOutcome) (l1 l2 : List Txn) (t : Txn),
        (∀ x ∈ l1, f x ≠ PushOutcome.raised) → f t = PushOutcome.raised →
        (larkPushLoop f (l1 ++ t :: l2)).1 = l1 ++ [t]) := by
  refine ⟨?_, ?_, ?_⟩
  · intro f txns h
    unfold larkAttempted
    rw [larkPushLoop_no_raised f txns.reverse
      (fun t ht => h t (List.mem_reverse.mp ht))]
  · intro g txns
    induction txns with
    | nil => rfl
    | cons t rest ih =>
      by_cases hc : t.phatSinhCo ≠ "0"
      · simp [processWooTransactions, hc, List.filter_cons, ih]
      · simp [processWooTransactions, hc, List.filter_cons, ih]
  · intro f l1 l2 t h hraise
    induction l1 with
    | nil => simp [larkPushLoop, hraise]
    | cons x xs ih =>
      have hx := h x (List.mem_cons_self x xs)
      have hxs : ∀ y ∈ xs, f y ≠ PushOutcome.raised :=
        fun y hy => h y (List.mem_cons_of_mem x hy)
      cases hcx : f x with
      | raised => exact absurd hcx hx
      | okCode => simp [larkPushLoop, hcx, ih hxs]
      | failCode => simp [larkPushLoop, hcx, ih hxs]

/-- Concrete instance of C6 (amended): a reported push failure on the middle
transaction leaves all three attempted; a woo exception on the middle
transaction leaves all three credit transactions processed; a raised push on
the middle transaction cuts the attempts after it. -/
theorem forwarder_isolation_amended_witness :
    larkAttempted okOn1Push [ceTxn1, ceTxn2, ceTxn3] = [ceTxn3, ceTxn2, ceTxn1]
    ∧ (processWooTransactions (fun _ => WooOutcome.raised)
        [ceTxn1, ceTxn2, ceTxn3]).map Prod.fst
        = List.filter (fun t => decide (t.phatSinhCo ≠ "0")) [ceTxn1, ceTxn2, ceTxn3]
    ∧ (larkPushLoop cePush ([ceTxn3] ++ ceTxn2 :: [ceTxn1])).1 = [ceTxn3] ++ [ceTxn2] := by
  refine ⟨?_, ?_, ?_⟩
  · exact (forwarder_isolation_amended.1 okOn1Push [ceTxn1, ceTxn2, ceTxn3]
      (by decide)).trans (by decide)
  · exact forwarder_isolation_amended.2.1 (fun _ => WooOutcome.raised)
      [ceTxn1, ceTxn2, ceTxn3]
  · exact forwarder_isolation_amended.2.2 cePush [ceTxn3] [ceTxn1] ceTxn2
      (by decide) (by decide)

/-- C10.  Deduplication is cross-batch only: for any identifier `i` that is
non-empty and unseen in the older batches, `find_unique_transactions_v2`
keeps every transaction of the newest batch bearing `i` — duplicates within
the newest batch included — and, when no push raises, every one of them is
pushed. -/
theorem dedup_is_cross_batch_only
    (oldBatches : List (List Txn)) (newest : List Txn) (i : String)
    (h1 : i ≠ "") (h2 : i ∉ oldTransactionIds oldBatches) :
    ((findUniqueTransactions oldBatches newest).countP
        (fun t => decide (txnId t = i))
      = newest.countP (fun t => decide (txnId t = i)))
    ∧ ∀ f : Txn → PushOutcome,
        (∀ t ∈ findUniqueTransactions oldBatches newest, f t ≠ PushOutcome.raised) →
        (larkAttempted f (findUniqueTransactions oldBatches newest)).countP
            (fun t => decide (txnId t = i))
          = newest.countP (fun t => decide (txnId t = i)) := by
  have hcount : (findUniqueTransactions oldBatches newest).countP
      (fun t => decide (txnId t = i))
      = newest.countP (fun t => decide (txnId t = i)) := by
    rw [findUnique_eq_filter, List.countP_filter]
    apply List.countP_congr
    intro t _
    by_cases hti : txnId t = i
    · simp [hti, h1, h2]
    · simp [hti]
  refine ⟨hcount, fun f hf => ?_⟩
  unfold larkAttempted
  rw [larkPushLoop_no_raised f (findUniqueTransactions oldBatches newest).reverse
    (fun t ht => hf t (List.mem_reverse.mp ht))]
  simpa [List.countP_reverse] using hcount

/-- Concrete instance of C10: the newest batch contains two transactions
with the same fresh identifier `FT77777`; both are kept and both are
pushed. -/
theorem dedup_is_cross_batch_only_witness :
    ((findUniqueTransactions
        [[⟨"FT11111", "01/06/2025 10:00:00", "100", "0", "a"⟩]]
        [⟨" FT77777", "01/06/2025 11:00:00", "100", "0", "a"⟩,
         ⟨"FT77777 ", "01/06/2025 11:00:00", "100", "0", "b"⟩]).countP
        (fun t => decide (txnId t = "FT77777"))
      = 2)
    ∧ ((larkAttempted allOkPush
        (findUniqueTransactions
          [[⟨"FT11111", "01/06/2025 10:00:00", "100", "0", "a"⟩]]
          [⟨" FT77777", "01/06/2025 11:00:00", "100", "0", "a"⟩,
           ⟨"FT77777 ", "01/06/2025 11:00:00", "100", "0", "b"⟩])).countP
        (fun t => decide (txnId t = "FT77777"))
      = 2) := by
  have h := dedup_is_cross_batch_only
    [[⟨"FT11111", "01/06/2025 10:00:00", "100", "0", "a"⟩]]
    [⟨" FT77777", "01/06/2025 11:00:00", "100", "0", "a"⟩,
     ⟨"FT77777 ", "01/06/2025 11:00:00", "100", "0", "b"⟩]
    "FT77777" (by decide) (by decide)
  constructor
  · exact h.1.trans (by decide)
  · exact (h.2 allOkPush (by decide)).trans (by decide)

/-- Reduction of `latestStep` on an unparseable date. -/
theorem latestStep_time_none (acc : Option Int) (t : TimedTxn) (h : t.time = none) :
    latestStep acc t = acc := by
  unfold latestStep
  rw [h]

/-- Reduction of `latestStep` on a parsed date with empty accumulator. -/
theorem latestStep_some_none (t : TimedTxn) (d : Int) (h : t.time = some d) :
    latestStep none t = some d := by
  unfold latestStep
  rw [h]

/-- Reduction of `latestStep` on a parsed date with running maximum. -/
theorem latestStep_some_some (t : TimedTxn) (d m0 : Int) (h : t.time = some d) :
    latestStep (some m0) t = if m0 < d then some d else some m0 := by
  unfold latestStep
  rw [h]

/-- The latest-transaction-time loop computes an upper bound that is either
the starting accumulator or one of the parsed transaction times. -/
theorem latestTxnTime_foldl_spec :
    ∀ (l : List TimedTxn) (acc : Option Int) (m : Int),
      l.foldl latestStep acc = some m →
      (acc = some m ∨ m ∈ l.filterMap TimedTxn.time)
      ∧ (∀ x ∈ l.filterMap TimedTxn.time, x ≤ m)
      ∧ (∀ a : Int, acc = some a → a ≤ m) := by
  intro l
  induction l with
  | nil =>
    intro acc m h
    simp only [List.foldl_nil] at h
    subst h
    refine ⟨Or.inl rfl, by simp, ?_⟩
    intro a ha
    have := Option.some.inj ha
    omega
  | cons t rest ih =>
    intro acc m h
    simp only [List.foldl_cons] at h
    obtain ⟨h1, h2, h3⟩ := ih (latestStep acc t) m h
    cases ht : t.time with
    | none =>
      rw [latestStep_time_none acc t ht] at h1 h3
      refine ⟨?_, ?_, h3⟩
      · simpa [List.filterMap_cons, ht] using h1
      · simpa [List.filterMap_cons, ht] using h2
    | some d =>
      cases acc with
      | none =>
        rw [latestStep_some_none t d ht] at h1 h3
        have hdm : d ≤ m := h3 d rfl
        refine ⟨Or.inr ?_, ?_, by simp⟩
        · simp only [List.filterMap_cons, ht, List.mem_cons]
          rcases h1 with h1 | h1
          · exact Or.inl (Option.some.inj h1).symm
          · exact Or.inr h1
        · intro x hx
          simp only [List.filterMap_cons, ht, List.mem_cons] at hx
          rcases hx with rfl | hx
          · exact hdm
          · exact h2 x hx
      | some m0 =>
        rw [latestStep_some_some t d m0 ht] at h1 h3
        by_cases hlt : m0 < d
        · rw [if_pos hlt] at h1 h3
          have hdm : d ≤ m := h3 d rfl
          refine ⟨Or.inr ?_, ?_, ?_⟩
          · simp only [List.filterMap_cons, ht, List.mem_cons]
            rcases h1 with h1 | h1
            · exact Or.inl (Option.some.inj h1).symm
            · exact Or.inr h1
          · intro x hx
            simp only [List.filterMap_cons, ht, List.mem_cons] at hx
            rcases hx with rfl | hx
            · exact hdm
            · exact h2 x hx
          · intro a ha
            have := Option.some.inj ha
            omega
        · rw [if_neg hlt] at h1 h3
          have hm0 : m0 ≤ m := h3 m0 rfl
          refine ⟨?_, ?_, ?_⟩
          · rcases h1 with h1 | h1
            · exact Or.inl h1
            · refine Or.inr ?_
              simp only [List.filterMap_cons, ht, List.mem_cons]
              exact Or.inr h1
          · intro x hx
            simp only [List.filterMap_cons, ht, List.mem_cons] at hx
            rcases hx with rfl | hx
            · omega
            · exact h2 x hx
          · intro a ha
            have := Option.some.inj ha
            omega

/-- C2 counterexample.  When the most recently persisted batch contains no
transactions, the computed watermark is NOT the batch's own fetch timestamp:
`get_from_date_for_fetch` subtracts the 2-minute buffer from the fallback
value as well, so a "no transactions" batch fetched at minute 1000 yields a
watermark of 998, not 1000. -/
theorem watermark_empty_batch_counterexample :
    getFromDateForFetch 5000 (some emptyBatchFile) = 998
    ∧ getFromDateForFetch 5000 (some emptyBatchFile) ≠ 1000 := by
  constructor <;> decide

/-- C2 (amended).  The watermark computed by `get_from_date_for_fetch` is:
the maximum parsed transaction timestamp of the most recently persisted
batch minus the 2-minute buffer when that batch has transactions with a
parseable date; the batch's own fetch timestamp minus the same 2-minute
buffer when it contains no transactions; and the start of the current day
(00:00 local) when no batch files exist at all. -/
theorem watermark_value_spec :
    (∀ (now : Int) (f : FetchFile) (m : Int),
        latestTxnTime f.transactions = some m →
        getFromDateForFetch now (some f) = m - 2
        ∧ m ∈ f.transactions.filterMap TimedTxn.time
        ∧ ∀ x ∈ f.transactions.filterMap TimedTxn.time, x ≤ m)
    ∧ (∀ (now tFetch : Int) (f : FetchFile),
        f.transactions = [] → f.fetchTimestamp = some tFetch →
        getFromDateForFetch now (some f) = tFetch - 2)
    ∧ (∀ now : Int, getFromDateForFetch now none = startOfBusinessDay now) := by
  refine ⟨?_, ?_, fun now => rfl⟩
  · intro now f m hlatest
    have hspec := latestTxnTime_foldl_spec f.transactions none m hlatest
    have hne : ¬f.transactions.isEmpty := by
      intro hempty
      rw [List.isEmpty_iff] at hempty
      rw [hempty] at hlatest
      exact Option.noConfusion hlatest
    have hlast : getLastFetchTime (some f) = some m := by
      simp only [getLastFetchTime]
      rw [if_neg hne, hlatest]
    refine ⟨?_, ?_, hspec.2.1⟩
    · unfold getFromDateForFetch
      rw [hlast]
    · rcases hspec.1 with h | h
      · exact Option.noConfusion h
      · exact h
  · intro now tFetch f hempty hts
    have hlast : getLastFetchTime (some f) = some tFetch := by
      simp only [getLastFetchTime]
      rw [if_pos (by rw [List.isEmpty_iff]; exact hempty), hts]
    unfold getFromDateForFetch
    rw [hlast]

/-- Concrete instance of C2 (amended): a newest batch with transactions at
minutes 30 and 40 yields watermark 38 = 40 - 2, and an empty newest batch
fetched at minute 1000 yields 998. -/
theorem watermark_value_spec_witness :
    getFromDateForFetch 10000 (some wmFile) = 38
    ∧ getFromDateForFetch 5000 (some emptyBatchFile) = 998 := by
  constructor
  · exact ((watermark_value_spec.1 10000 wmFile 40 (by decide)).1).trans (by decide)
  · exact (watermark_value_spec.2.1 5000 1000 emptyBatchFile (by decide) (by decide)).trans
      (by decide)

/-- Splitting the attempt list at the first non-captcha outcome. -/
theorem range_map_decompose (maxAttempts k : Nat) (f : Nat → AttemptOutcome)
    (hk : k < maxAttempts) (hprev : ∀ j, j < k → f j = AttemptOutcome.gw715) :
    (List.range maxAttempts).map f
      = List.replicate k AttemptOutcome.gw715
        ++ f k :: (List.range' (k + 1) (maxAttempts - k - 1)).map f := by
  have hsplit : List.range' 0 maxAttempts
      = List.range' 0 k ++ List.range' (0 + k) (maxAttempts - k) := by
    rw [List.range'_append_1]
    congr 1
    omega
  rw [List.range_eq_range', hsplit, List.map_append]
  congr 1
  · apply List.eq_replicate_iff.mpr
    refine ⟨by simp, ?_⟩
    intro b hb
    simp only [List.mem_map] at hb
    obtain ⟨j, hj, rfl⟩ := hb
    rw [List.mem_range'] at hj
    obtain ⟨i, hi, rfl⟩ := hj
    exact hprev _ (by omega)
  · have hrest : maxAttempts - k = (maxAttempts - k - 1) + 1 := by omega
    rw [Nat.zero_add, hrest, List.range'_succ, List.map_cons]
    simp

/-- A block of captcha failures is retried through. -/
theorem logInList_replicate_gw715 (k : Nat) :
    ∀ l, logInList (List.replicate k AttemptOutcome.gw715 ++ l) = logInList l := by
  induction k with
  | zero => intro l; rfl
  | succ n ih =>
    intro l
    rw [List.replicate_succ, List.cons_append]
    exact ih l

/-- A block of captcha failures costs one attempt each. -/
theorem attemptsUsed_replicate_gw715 (k : Nat) (o : AttemptOutcome)
    (l : List AttemptOutcome) :
    attemptsUsed (List.replicate k AttemptOutcome.gw715 ++ o :: l)
      = k + attemptsUsed (o :: l) := by
  induction k with
  | zero => simp
  | succ n ih =>
    rw [List.replicate_succ, List.cons_append]
    show 1 + attemptsUsed (List.replicate n AttemptOutcome.gw715 ++ o :: l)
      = (n + 1) + attemptsUsed (o :: l)
    rw [ih]
    omega

/-- Exhausting the budget on captcha failures uses every attempt. -/
theorem attemptsUsed_replicate_all (k : Nat) :
    attemptsUsed (List.replicate k AttemptOutcome.gw715) = k := by
  induction k with
  | zero => rfl
  | succ n ih =>
    rw [List.replicate_succ]
    show 1 + attemptsUsed (List.replicate n AttemptOutcome.gw715) = n + 1
    rw [ih]
    omega

/-- A non-captcha outcome ends the loop at that attempt. -/
theorem attemptsUsed_cons_stop (o : AttemptOutcome) (l : List AttemptOutcome)
    (h : o ≠ AttemptOutcome.gw715) : attemptsUsed (o :: l) = 1 := by
  cases o with
  | gw715 => exact absurd rfl h
  | success => rfl
  | gw18 => rfl
  | credentialError => rfl

/-- C3.  `log_in_v2` retries captcha (GW715) failures with a fresh attempt
each time, up to `max_attempts`: after `k` captcha failures (`k` within the
budget), a success on attempt `k` makes it return `True` having used exactly
`k + 1` attempts, while a terminal outcome on attempt `k` (GW18 account lock
or any other credential error) makes it return `False` immediately, also
after exactly `k + 1` attempts — no further attempt is made; and if every
attempt fails with GW715 it returns `False` after exactly `max_attempts`
attempts. -/
theorem log_in_v2_retry_policy (maxAttempts : Nat) (f : Nat → AttemptOutcome) :
    (∀ k, k < maxAttempts → (∀ j, j < k → f j = AttemptOutcome.gw715) →
      ((f k = AttemptOutcome.success →
          logInV2 maxAttempts f = true ∧ logInV2Attempts maxAttempts f = k + 1)
       ∧ ((f k = AttemptOutcome.gw18 ∨ f k = AttemptOutcome.credentialError) →
          logInV2 maxAttempts f = false ∧ logInV2Attempts maxAttempts f = k + 1)))
    ∧ ((∀ j, j < maxAttempts → f j = AttemptOutcome.gw715) →
      logInV2 maxAttempts f = false
      ∧ logInV2Attempts maxAttempts f = maxAttempts) := by
  constructor
  · intro k hk hprev
    have hdec := range_map_decompose maxAttempts k f hk hprev
    constructor
    · intro hsucc
      constructor
      · unfold logInV2
        rw [hdec, logInList_replicate_gw715, hsucc]
        rfl
      · unfold logInV2Attempts
        rw [hdec, attemptsUsed_replicate_gw715,
          attemptsUsed_cons_stop _ _ (by rw [hsucc]; decide)]
    · intro hterm
      constructor
      · unfold logInV2
        rw [hdec, logInList_replicate_gw715]
        rcases hterm with h | h <;> rw [h] <;> rfl
      · unfold logInV2Attempts
        rw [hdec, attemptsUsed_replicate_gw715, attemptsUsed_cons_stop]
        rcases hterm with h | h <;> rw [h] <;> decide
  · intro hall
    have hrep : (List.range maxAttempts).map f
        = List.replicate maxAttempts AttemptOutcome.gw715 := by
      apply List.eq_replicate_iff.mpr
      refine ⟨by simp, ?_⟩
      intro b hb
      simp only [List.mem_map, List.mem_range] at hb
      obtain ⟨j, hj, rfl⟩ := hb
      exact hall j hj
    constructor
    · unfold logInV2
      rw [hrep]
      simpa using logInList_replicate_gw715 maxAttempts []
    · unfold logInV2Attempts
      rw [hrep, attemptsUsed_replicate_all]

/-- Concrete instance of C3: with the default budget of 3, two captcha
failures followed by a success yield a successful login after exactly 3
attempts, and a terminal GW18 on the first attempt yields failure after
exactly 1 attempt. -/
theorem log_in_v2_retry_policy_witness :
    (logInV2 3 retryOutcomes = true ∧ logInV2Attempts 3 retryOutcomes = 3)
    ∧ (logInV2 3 (fun _ => AttemptOutcome.gw18) = false
       ∧ logInV2Attempts 3 (fun _ => AttemptOutcome.gw18) = 1) := by
  constructor
  · exact ((log_in_v2_retry_policy 3 retryOutcomes).1 2 (by omega)
      (fun j hj => by
        have hj01 : j = 0 ∨ j = 1 := by omega
        rcases hj01 with rfl | rfl <;> decide)).1 (by decide)
  · exact ((log_in_v2_retry_policy 3 (fun _ => AttemptOutcome.gw18)).1 0 (by omega)
      (fun j hj => absurd hj (by omega))).2 (Or.inl rfl)

/-- C4.  In the scheduler's health-check branch: when the health check is
due, the session is dead and no recovery is in progress, the loop sleeps at
least the full 180-second cooldown before making exactly one recovery login
attempt; when `recovery_in_progress` is set, the branch performs nothing at
all (no second concurrent recovery can start); and when the single recovery
attempt fails, the branch pushes a failure notification, tears the
environment down and exits with status 1 — still having made exactly one
login attempt, with no retry. -/
theorem scheduler_recovery_policy :
    (∀ ok : Bool, loginAttemptCount (healthCheckStep true false false ok) = 1)
    ∧ (∀ ok : Bool, 180 ≤ sleepBeforeFirstLogin (healthCheckStep true false false ok))
    ∧ (∀ due alive ok : Bool, healthCheckStep due alive true ok = [])
    ∧ SchedEvent.notifyFailure ∈ healthCheckStep true false false false
    ∧ SchedEvent.teardown ∈ healthCheckStep true false false false
    ∧ SchedEvent.exitProcess 1 ∈ healthCheckStep true false false false
    ∧ loginAttemptCount (healthCheckStep true false false false) = 1 := by
  refine ⟨fun ok => ?_, fun ok => ?_, fun due alive ok => ?_,
    by decide, by decide, by decide, by decide⟩
  · cases ok <;> decide
  · cases ok <;> decide
  · cases due <;> cases alive <;> cases ok <;> decide

/-- The final batch file name differs from its temporary sibling. -/
theorem finalBatchName_ne_tmp (ts : String) :
    finalBatchName ts ≠ finalBatchName ts ++ ".tmp" := by
  intro h
  have hlen := congrArg String.length h
  rw [String.length_append] at hlen
  have : (".tmp" : String).length = 4 := rfl
  omega

/-- The write-permission probe file differs from the final batch file. -/
theorem finalBatchName_ne_writeTest (ts : String) :
    finalBatchName ts ≠ ".write_test" := by
  intro h
  have hlen := congrArg String.length h
  unfold finalBatchName at hlen
  rw [String.length_append, String.length_append] at hlen
  have h1 : ("mb_biz_transactions_" : String).length = 20 := rfl
  have h2 : (".json" : String).length = 5 := rfl
  have h3 : (".write_test" : String).length = 11 := rfl
  omega

/-- C9.  Both batch-persist paths (`save_transactions_to_file` for a
non-empty batch and the inline empty-batch save) write the complete batch
content to a temporary `.tmp` file first and only then rename it onto the
final batch name: in every state a reader can observe while the operations
run — including mid-write partial contents and crash points — the final
batch name holds either whatever it held before, nothing, or the complete
new content; never a partially written batch. -/
theorem record_batch_atomic (ts content : String) (s0 st : FsState)
    (h : st ∈ observableStates s0 (saveTransactionsOps ts content)
       ∨ st ∈ observableStates s0 (saveEmptyBatchOps ts content)) :
    st (finalBatchName ts) = s0 (finalBatchName ts)
    ∨ st (finalBatchName ts) = none
    ∨ st (finalBatchName ts) = some content := by
  have hTmp := finalBatchName_ne_tmp ts
  have hTest := finalBatchName_ne_writeTest ts
  rcases h with h | h
  · simp only [saveTransactionsOps, observableStates, applyFsOp, midWriteStates,
      List.mem_cons, List.mem_append, List.mem_map, List.mem_range,
      List.mem_singleton, List.not_mem_nil, List.nil_append, or_false,
      false_or] at h
    rcases h with rfl | h
    · exact Or.inl rfl
    rcases h with ⟨k, _, rfl⟩ | h
    · exact Or.inl (by simp [fsSet, hTest])
    rcases h with rfl | h
    · exact Or.inl (by simp [fsSet, hTest])
    rcases h with rfl | h
    · exact Or.inl (by simp [fsSet, hTest])
    rcases h with ⟨k, _, rfl⟩ | h
    · exact Or.inl (by simp [fsSet, hTmp, hTest])
    rcases h with rfl | h
    · exact Or.inl (by simp [fsSet, hTmp, hTest])
    rcases h with rfl | rfl
    · exact Or.inr (Or.inl (by simp [fsSet]))
    · refine Or.inr (Or.inr ?_)
      simp [fsSet, applyFsOp, hTmp, Ne.symm hTmp]
  · simp only [saveEmptyBatchOps, observableStates, applyFsOp, midWriteStates,
      List.mem_cons, List.mem_append, List.mem_map, List.mem_range,
      List.mem_singleton, List.not_mem_nil, List.nil_append, or_false,
      false_or] at h
    rcases h with rfl | h
    · exact Or.inl rfl
    rcases h with ⟨k, _, rfl⟩ | h
    · exact Or.inl (by simp [fsSet, hTmp])
    rcases h with rfl | rfl
    · exact Or.inl (by simp [fsSet, hTmp])
    · refine Or.inr (Or.inr ?_)
      simp [fsSet, applyFsOp, hTmp, Ne.symm hTmp]

/-- Concrete instance of C9: the pre-rename state of a non-empty-batch save
over an empty directory leaves the final name absent. -/
theorem record_batch_atomic_witness :
    ((fun _ => none : FsState) (finalBatchName "20250605_090000")
        = (fun _ => none : FsState) (finalBatchName "20250605_090000"))
    ∨ ((fun _ => none : FsState) (finalBatchName "20250605_090000") = none)
    ∨ ((fun _ => none : FsState) (finalBatchName "20250605_090000")
        = some "batchjson") :=
  record_batch_atomic "20250605_090000" "batchjson" (fun _ => none) (fun _ => none)
    (Or.inl (List.mem_cons_self _ _))

end GotoBank
